import Mathlib

/-!
Verification development for the Dhruva-Platform inference orchestration
engine (`server/module/services/service/inference_service.py`).

The Python source is shallowly embedded: each relevant function is
translated into an executable Lean definition, Python dicts become
association lists, exceptions become `Except`, and the backend (Triton)
plus the surrounding request machinery are abstracted as oracles passed
in explicitly.  Theorems then settle the specification's claims about
pipeline validation, execution, inter-stage rewriting, response decoding,
service-descriptor caching, language-id augmentation and transliteration
short-circuiting.
-/

/-- Task types of `_ULCATaskType` (schema/services/common): ASR, TRANSLATION,
TRANSLITERATION, TTS, NER, as used throughout `inference_service.py`. -/
inductive TaskType where
  | ASR
  | TRANSLATION
  | TRANSLITERATION
  | TTS
  | NER
deriving DecidableEq, Repr

/-- One entry of `request_body.pipelineTasks`: its task type plus the parts of
its `config` dict that `run_pipeline_inference` inspects — the optional
`isSentence` flag (line 472), the optional explicit `serviceId` (line 489) and
`config["language"]["sourceLanguage"]` used by auto-selection (lines 663-688).
`none` models an absent key. -/
structure Stage where
  taskType : TaskType
  isSentence : Option Bool
  serviceId : Option String
  sourceLanguage : String
deriving DecidableEq, Repr

/-- Validity of one adjacent pair of pipeline stages, mirroring the loop body
of `run_pipeline_inference` (inference_service.py lines 459-480): ASR must be
followed by TRANSLATION; TRANSLATION by TTS; TRANSLITERATION by TRANSLATION or
TTS and additionally must not be configured word-level
(`"isSentence" in config and not config["isSentence"]`); any other current
task type (TTS, NER) invalidates the pipeline. -/
def pairStepValid (cur next : Stage) : Bool :=
  match cur.taskType with
  | .ASR => if next.taskType = .TRANSLATION then true else false
  | .TRANSLATION => if next.taskType = .TTS then true else false
  | .TRANSLITERATION =>
      if next.taskType = .TRANSLATION ∨ next.taskType = .TTS then
        if cur.isSentence = some false then false else true
      else false
  | _ => false

/-- Pre-execution pipeline validation of `run_pipeline_inference`
(inference_service.py lines 453-480): `is_pipeline_valid` starts true and the
loop over `range(len(pipelineTasks) - 1)` breaks false at the first invalid
adjacent pair; the conjunction below has the same value as that loop. -/
def pipelineValid : List Stage → Bool
  | cur :: next :: rest => pairStepValid cur next && pipelineValid (next :: rest)
  | _ => true

/-- Transition table of §4.5 of the specification, written from the spec's
words (not from the code): ASR→TRANSLATION, TRANSLATION→TTS,
TRANSLITERATION→TRANSLATION or TTS, TTS terminal. -/
def specTransition (a b : TaskType) : Bool :=
  match a, b with
  | .ASR, .TRANSLATION => true
  | .TRANSLATION, .TTS => true
  | .TRANSLITERATION, .TRANSLATION => true
  | .TRANSLITERATION, .TTS => true
  | _, _ => false

/-- The claim's acceptance condition for one adjacent ordered pair of stages:
the pair of task types appears in the §4.5 transition table, and the earlier
stage is not a word-level (`isSentence` present and false) transliteration
stage. -/
def specPairAllowed (cur next : Stage) : Prop :=
  specTransition cur.taskType next.taskType = true ∧
    ¬(cur.taskType = .TRANSLITERATION ∧ cur.isSentence = some false)

instance (cur next : Stage) : Decidable (specPairAllowed cur next) := by
  unfold specPairAllowed; infer_instance

theorem pairStepValid_iff (cur next : Stage) :
    pairStepValid cur next = true ↔ specPairAllowed cur next := by
  obtain ⟨ct, cs, _, _⟩ := cur
  obtain ⟨nt, _, _, _⟩ := next
  rcases cs with _ | ⟨_ | _⟩ <;> cases ct <;> cases nt <;>
    simp [pairStepValid, specPairAllowed, specTransition]

/-- Claim C1: `run_pipeline_inference`'s pre-execution validation accepts a
submitted pipeline iff every adjacent ordered pair of stage task types appears
in the §4.5 transition table and no word-level (`isSentence` false)
TRANSLITERATION stage is followed by another stage; every other adjacent pair
over the full cross-product of task types is rejected. -/
theorem pipeline_validation_iff_spec_table (ss : List Stage) :
    pipelineValid ss = true ↔
      ∀ i (h : i + 1 < ss.length),
        specPairAllowed (ss.get ⟨i, Nat.lt_of_succ_lt h⟩) (ss.get ⟨i + 1, h⟩) := by
  induction ss with
  | nil => simp [pipelineValid]
  | cons a rest ih =>
    cases rest with
    | nil =>
      simp only [pipelineValid, List.length]
      constructor
      · intro _ i h
        omega
      · intro _
        trivial
    | cons b rest' =>
      simp only [pipelineValid, Bool.and_eq_true, ih, pairStepValid_iff]
      constructor
      · rintro ⟨hab, htail⟩ i h
        cases i with
        | zero => exact hab
        | succ j =>
          have hj : j + 1 < (b :: rest').length := by
            simpa [List.length] using h
          exact htail j hj
      · intro hall
        refine ⟨?_, ?_⟩
        · have h0 : 0 + 1 < (a :: b :: rest').length := by
            simp [List.length]
          exact hall 0 h0
        · intro j hj
          have hj' : j + 1 + 1 < (a :: b :: rest').length := by
            simpa [List.length] using hj
          exact hall (j + 1) hj'

theorem pipeline_validation_iff_spec_table_holds :
    pipelineValid
      [⟨.ASR, none, some "svc-a", "hi"⟩, ⟨.TRANSLATION, none, some "svc-b", "hi"⟩,
        ⟨.TTS, none, some "svc-c", "hi"⟩] = true :=
  (pipeline_validation_iff_spec_table _).mpr (by
    intro i h
    rcases i with _ | _ | i
    · show specPairAllowed ⟨.ASR, none, some "svc-a", "hi"⟩
        ⟨.TRANSLATION, none, some "svc-b", "hi"⟩
      decide
    · show specPairAllowed ⟨.TRANSLATION, none, some "svc-b", "hi"⟩
        ⟨.TTS, none, some "svc-c", "hi"⟩
      decide
    · exfalso
      simp [List.length] at h
      omega)

/-- JSON-like values of the untyped dicts that `run_pipeline_inference`
rewrites between stages (`previous_output_json` and the items of its
`"output"` list): strings, lists and string-keyed dicts, the latter as
insertion-ordered association lists. -/
inductive Val where
  | s (text : String)
  | l (items : List Val)
  | dict (fields : List (String × Val))

/-- Python `d[k]` / `k in d` on an insertion-ordered dict: the value stored at
the first (and, for a genuine dict, only) entry with key `k`. -/
def lookupKey {β : Type} (k : String) : List (String × β) → Option β
  | [] => none
  | (k', v) :: rest => if k' = k then some v else lookupKey k rest

/-- Python `d[k] = v`: replace the value in place when the key exists
(preserving its position), otherwise append the new entry at the end. -/
def setKey {β : Type} (k : String) (v : β) : List (String × β) → List (String × β)
  | [] => [(k, v)]
  | (k', v') :: rest =>
      if k' = k then (k, v) :: rest else (k', v') :: setKey k v rest

/-- Python `del d[k]` / `d.pop(k, None)`: drop the first entry with key `k`
(for a genuine dict, the only one); dropping a missing key is a no-op, as with
`pop` with a default. -/
def eraseKey {β : Type} (k : String) : List (String × β) → List (String × β)
  | [] => []
  | (k', v') :: rest => if k' = k then rest else (k', v') :: eraseKey k rest

/-- Runtime errors Python raises from the untyped dict/list accesses of the
inter-stage rewrite (inference_service.py lines 559-582). -/
inductive PyErr where
  | keyError (k : String)
  | indexError
  | typeError
deriving DecidableEq, Repr

/-- TRANSLATION special case of the inter-stage rewrite, per item
(inference_service.py lines 566-572): `item["source"] = item["target"];
del item["target"]` — a missing `"target"` key is a Python `KeyError`, a
non-dict item a `TypeError`. -/
def swapItem (item : Val) : Except PyErr Val :=
  match item with
  | .dict fs =>
      match lookupKey "target" fs with
      | some t => .ok (.dict (eraseKey "target" (setKey "source" t fs)))
      | none => .error (.keyError "target")
  | _ => .error .typeError

/-- TRANSLITERATION special case of the inter-stage rewrite, per item
(inference_service.py lines 573-579): `item["source"] = item["target"][0];
del item["target"]` — the first entry of the ranked candidate list becomes
the next `"source"`; an empty candidate list is a Python `IndexError` (for a
string value, Python `s[0]` is its first character). -/
def firstItem (item : Val) : Except PyErr Val :=
  match item with
  | .dict fs =>
      match lookupKey "target" fs with
      | some (.l (t :: _)) => .ok (.dict (eraseKey "target" (setKey "source" t fs)))
      | some (.l []) => .error .indexError
      | some (.s txt) =>
          if txt = "" then .error .indexError
          else .ok (.dict (eraseKey "target" (setKey "source" (.s (txt.take 1)) fs)))
      | some (.dict _) => .error (.keyError "0")
      | none => .error (.keyError "target")
  | _ => .error .typeError

/-- The `for i in range(len(previous_output_json["input"]))` mutation loop of
the inter-stage rewrite: apply `f` to every item, stopping at the first
raised error exactly as the Python loop does. -/
def rewriteItems (f : Val → Except PyErr Val) : List Val → Except PyErr (List Val)
  | [] => .ok []
  | x :: xs =>
      match f x with
      | .error e => .error e
      | .ok y =>
          match rewriteItems f xs with
          | .error e => .error e
          | .ok ys => .ok (y :: ys)

/-- Rewrite of the freshly renamed `"input"` entry of `previous_output_json`
by the per-item transformation `f` (the loops at inference_service.py lines
568-572 and 575-579); iterating a non-list value is a `TypeError`. -/
def rewriteInput (f : Val → Except PyErr Val) (fields : List (String × Val)) :
    Except PyErr (List (String × Val)) :=
  match lookupKey "input" fields with
  | some (.l items) =>
      match rewriteItems f items with
      | .error e => .error e
      | .ok items' => .ok (setKey "input" (.l items') fields)
  | some _ => .error .typeError
  | none => .error (.keyError "input")

/-- Inter-stage rewrite of `run_pipeline_inference` (inference_service.py
lines 559-582), applied to `previous_output_json.dict()` after every
successful stage: `pop("config", None)`; if an `"output"` key exists, store
its value under `"input"` and delete `"output"`, then apply the TRANSLATION
or TRANSLITERATION per-item special case; with no `"output"` key (the TTS
response) nothing further happens. -/
def interStageRewrite (tt : TaskType) (fields : List (String × Val)) :
    Except PyErr (List (String × Val)) :=
  let f1 := eraseKey "config" fields
  match lookupKey "output" f1 with
  | some outv =>
      let f2 := eraseKey "output" (setKey "input" outv f1)
      match tt with
      | .TRANSLATION => rewriteInput swapItem f2
      | .TRANSLITERATION => rewriteInput firstItem f2
      | _ => .ok f2
  | none => .ok f1

theorem lookupKey_eraseKey_ne {β : Type} (k k' : String) (h : k' ≠ k)
    (l : List (String × β)) : lookupKey k' (eraseKey k l) = lookupKey k' l := by
  induction l with
  | nil => rfl
  | cons p rest ih =>
    obtain ⟨pk, pv⟩ := p
    by_cases hk : pk = k
    · subst hk
      simp [eraseKey, lookupKey, Ne.symm h]
    · by_cases hk' : pk = k'
      · subst hk'
        simp [eraseKey, lookupKey, hk]
      · simp [eraseKey, lookupKey, hk, hk', ih]

theorem lookupKey_eq_none_of_not_mem {β : Type} (k : String)
    (l : List (String × β)) (h : k ∉ l.map Prod.fst) : lookupKey k l = none := by
  induction l with
  | nil => rfl
  | cons p rest ih =>
    obtain ⟨pk, pv⟩ := p
    simp only [List.map, List.mem_cons, not_or] at h
    have hne : ¬pk = k := fun hq => h.1 hq.symm
    simp [lookupKey, hne, ih h.2]

theorem lookupKey_eraseKey_self {β : Type} (k : String) (l : List (String × β))
    (h : (l.map Prod.fst).Nodup) : lookupKey k (eraseKey k l) = none := by
  induction l with
  | nil => rfl
  | cons p rest ih =>
    obtain ⟨pk, pv⟩ := p
    simp only [List.map, List.nodup_cons] at h
    by_cases hk : pk = k
    · subst hk
      simpa [eraseKey] using lookupKey_eq_none_of_not_mem pk rest h.1
    · simp [eraseKey, lookupKey, hk, ih h.2]

theorem lookupKey_setKey_self {β : Type} (k : String) (v : β)
    (l : List (String × β)) : lookupKey k (setKey k v l) = some v := by
  induction l with
  | nil => simp [setKey, lookupKey]
  | cons p rest ih =>
    obtain ⟨pk, pv⟩ := p
    by_cases hk : pk = k
    · simp [setKey, hk, lookupKey]
    · simp [setKey, hk, lookupKey, ih]

theorem lookupKey_setKey_ne {β : Type} (k k' : String) (v : β) (h : k' ≠ k)
    (l : List (String × β)) : lookupKey k' (setKey k v l) = lookupKey k' l := by
  induction l with
  | nil => simp [setKey, lookupKey, Ne.symm h]
  | cons p rest ih =>
    obtain ⟨pk, pv⟩ := p
    by_cases hk : pk = k
    · subst hk
      simp [setKey, lookupKey, Ne.symm h]
    · simp [setKey, hk, lookupKey, ih]

theorem keys_eraseKey_sublist {β : Type} (k : String) (l : List (String × β)) :
    ((eraseKey k l).map Prod.fst).Sublist (l.map Prod.fst) := by
  induction l with
  | nil => simp [eraseKey]
  | cons p rest ih =>
    obtain ⟨pk, pv⟩ := p
    by_cases hk : pk = k
    · subst hk
      simp only [eraseKey, if_pos rfl]
      exact List.sublist_cons_self pk (rest.map Prod.fst)
    · simpa [eraseKey, hk] using ih.cons₂ pk

theorem nodup_keys_eraseKey {β : Type} (k : String) (l : List (String × β))
    (h : (l.map Prod.fst).Nodup) : ((eraseKey k l).map Prod.fst).Nodup :=
  h.sublist (keys_eraseKey_sublist k l)

theorem mem_keys_setKey {β : Type} (a k : String) (v : β) (l : List (String × β))
    (h : a ∈ (setKey k v l).map Prod.fst) : a = k ∨ a ∈ l.map Prod.fst := by
  induction l with
  | nil => simpa [setKey] using h
  | cons p rest ih =>
    obtain ⟨pk, pv⟩ := p
    by_cases hk : pk = k
    · subst hk
      simpa [setKey] using h
    · simp only [setKey, hk, if_false, List.map, List.mem_cons] at h
      rcases h with h | h
      · simp [h]
      · rcases ih h with h' | h'
        · exact Or.inl h'
        · simp [h']

theorem nodup_keys_setKey {β : Type} (k : String) (v : β) (l : List (String × β))
    (h : (l.map Prod.fst).Nodup) : ((setKey k v l).map Prod.fst).Nodup := by
  induction l with
  | nil => simp [setKey]
  | cons p rest ih =>
    obtain ⟨pk, pv⟩ := p
    simp only [List.map, List.nodup_cons] at h
    by_cases hk : pk = k
    · subst hk
      simp only [setKey, if_pos rfl, List.map, List.nodup_cons]
      exact h
    · simp only [setKey, hk, if_false, List.map, List.nodup_cons]
      refine ⟨fun hmem => ?_, ih h.2⟩
      rcases mem_keys_setKey pk k v rest hmem with h' | h'
      · exact hk h'
      · exact h.1 h'

/-- Shape of an `"output"` item that the inter-stage rewrite's per-item
special case consumes without raising: TRANSLATION items are dicts carrying a
`"target"` entry; TRANSLITERATION items are dicts whose `"target"` entry is a
non-empty ranked candidate list; every other task type imposes nothing. -/
def itemWF (tt : TaskType) (item : Val) : Prop :=
  match tt with
  | .TRANSLATION =>
      ∃ fs, item = .dict fs ∧ (fs.map Prod.fst).Nodup ∧
        ∃ t, lookupKey "target" fs = some t
  | .TRANSLITERATION =>
      ∃ fs, item = .dict fs ∧ (fs.map Prod.fst).Nodup ∧
        ∃ t ts, lookupKey "target" fs = some (.l (t :: ts))
  | _ => True

/-- The claimed relation between an `"output"` item and the `"input"` item
the rewrite hands to the next stage: for TRANSLATION the emitted `"target"`
text becomes the `"source"` and `"target"` is removed; for TRANSLITERATION
the first (top-ranked) entry of the `"target"` candidate list becomes the
`"source"` and the rest of the list is discarded with the key; for every
other task type the item is passed through unchanged. -/
def itemRewritten (tt : TaskType) (old new : Val) : Prop :=
  match tt with
  | .TRANSLATION =>
      ∃ fs fs', old = .dict fs ∧ new = .dict fs' ∧
        lookupKey "source" fs' = lookupKey "target" fs ∧
        lookupKey "target" fs' = none
  | .TRANSLITERATION =>
      ∃ fs fs' t ts, old = .dict fs ∧ new = .dict fs' ∧
        lookupKey "target" fs = some (.l (t :: ts)) ∧
        lookupKey "source" fs' = some t ∧
        lookupKey "target" fs' = none
  | _ => new = old

theorem swapItem_ok (item : Val) (h : itemWF .TRANSLATION item) :
    ∃ item', swapItem item = .ok item' ∧ itemRewritten .TRANSLATION item item' := by
  obtain ⟨fs, rfl, hnd, t, ht⟩ := h
  refine ⟨.dict (eraseKey "target" (setKey "source" t fs)), ?_, ?_⟩
  · simp [swapItem, ht]
  · refine ⟨fs, _, rfl, rfl, ?_, ?_⟩
    · rw [lookupKey_eraseKey_ne _ _ (by decide), lookupKey_setKey_self, ht]
    · exact lookupKey_eraseKey_self _ _ (nodup_keys_setKey _ _ _ hnd)

theorem firstItem_ok (item : Val) (h : itemWF .TRANSLITERATION item) :
    ∃ item', firstItem item = .ok item' ∧
      itemRewritten .TRANSLITERATION item item' := by
  obtain ⟨fs, rfl, hnd, t, ts, ht⟩ := h
  refine ⟨.dict (eraseKey "target" (setKey "source" t fs)), ?_, ?_⟩
  · simp [firstItem, ht]
  · refine ⟨fs, _, t, ts, rfl, rfl, ht, ?_, ?_⟩
    · rw [lookupKey_eraseKey_ne _ _ (by decide), lookupKey_setKey_self]
    · exact lookupKey_eraseKey_self _ _ (nodup_keys_setKey _ _ _ hnd)

theorem rewriteItems_ok (tt : TaskType) (f : Val → Except PyErr Val)
    (hf : ∀ item, itemWF tt item → ∃ item', f item = .ok item' ∧
      itemRewritten tt item item')
    (items : List Val) (h : ∀ item ∈ items, itemWF tt item) :
    ∃ items', rewriteItems f items = .ok items' ∧
      List.Forall₂ (itemRewritten tt) items items' := by
  induction items with
  | nil => exact ⟨[], rfl, List.Forall₂.nil⟩
  | cons x xs ih =>
    obtain ⟨y, hy, hr⟩ := hf x (h x (List.mem_cons_self x xs))
    obtain ⟨ys, hys, hrs⟩ := ih fun item hm => h item (List.mem_cons_of_mem x hm)
    exact ⟨y :: ys, by simp [rewriteItems, hy, hys], List.Forall₂.cons hr hrs⟩

/-- Claim C4: after every successful stage of a valid pipeline, the
inter-stage rewrite drops the `"config"` field, moves the previous stage's
`"output"` value to the next stage's `"input"` field, and transforms each
item according to the previous stage's task type — TRANSLATION swaps the
emitted `"target"` text into `"source"` and removes `"target"`;
TRANSLITERATION promotes the first (top-ranked) `"target"` suggestion to
`"source"`, discarding the rest of the ranked list; every other task type
passes items through unchanged. -/
theorem interStageRewrite_spec (tt : TaskType) (fields : List (String × Val))
    (items : List Val) (hnd : (fields.map Prod.fst).Nodup)
    (hout : lookupKey "output" fields = some (.l items))
    (hwf : ∀ item ∈ items, itemWF tt item) :
    ∃ fields' items', interStageRewrite tt fields = .ok fields' ∧
      lookupKey "config" fields' = none ∧
      lookupKey "output" fields' = none ∧
      lookupKey "input" fields' = some (.l items') ∧
      List.Forall₂ (itemRewritten tt) items items' := by
  have hnd1 : ((eraseKey "config" fields).map Prod.fst).Nodup :=
    nodup_keys_eraseKey _ _ hnd
  have hout1 : lookupKey "output" (eraseKey "config" fields) = some (.l items) := by
    rw [lookupKey_eraseKey_ne _ _ (by decide)]; exact hout
  set f1 := eraseKey "config" fields with hf1
  set f2 := eraseKey "output" (setKey "input" (Val.l items) f1) with hf2
  have hnd2 : (f2.map Prod.fst).Nodup :=
    nodup_keys_eraseKey _ _ (nodup_keys_setKey _ _ _ hnd1)
  have hcfg2 : lookupKey "config" f2 = none := by
    rw [hf2, lookupKey_eraseKey_ne _ _ (by decide),
      lookupKey_setKey_ne _ _ _ (by decide),
      hf1, lookupKey_eraseKey_self _ _ hnd]
  have hout2 : lookupKey "output" f2 = none := by
    rw [hf2]
    exact lookupKey_eraseKey_self _ _ (nodup_keys_setKey _ _ _ hnd1)
  have hin2 : lookupKey "input" f2 = some (.l items) := by
    rw [hf2, lookupKey_eraseKey_ne _ _ (by decide), lookupKey_setKey_self]
  cases tt with
  | TRANSLATION =>
    obtain ⟨items', hitems, hrel⟩ :=
      rewriteItems_ok .TRANSLATION swapItem swapItem_ok items hwf
    refine ⟨setKey "input" (Val.l items') f2, items', ?_, ?_, ?_, ?_, hrel⟩
    · simp only [interStageRewrite, hout1]
      simp [rewriteInput, hin2, hitems, hf2]
    · rw [lookupKey_setKey_ne _ _ _ (by decide)]; exact hcfg2
    · rw [lookupKey_setKey_ne _ _ _ (by decide)]; exact hout2
    · rw [lookupKey_setKey_self]
  | TRANSLITERATION =>
    obtain ⟨items', hitems, hrel⟩ :=
      rewriteItems_ok .TRANSLITERATION firstItem firstItem_ok items hwf
    refine ⟨setKey "input" (Val.l items') f2, items', ?_, ?_, ?_, ?_, hrel⟩
    · simp only [interStageRewrite, hout1]
      simp [rewriteInput, hin2, hitems, hf2]
    · rw [lookupKey_setKey_ne _ _ _ (by decide)]; exact hcfg2
    · rw [lookupKey_setKey_ne _ _ _ (by decide)]; exact hout2
    · rw [lookupKey_setKey_self]
  | ASR =>
    refine ⟨f2, items, ?_, hcfg2, hout2, hin2, ?_⟩
    · simp only [interStageRewrite, hout1]
    · exact List.forall₂_same.mpr fun x _ => rfl
  | TTS =>
    refine ⟨f2, items, ?_, hcfg2, hout2, hin2, ?_⟩
    · simp only [interStageRewrite, hout1]
    · exact List.forall₂_same.mpr fun x _ => rfl
  | NER =>
    refine ⟨f2, items, ?_, hcfg2, hout2, hin2, ?_⟩
    · simp only [interStageRewrite, hout1]
    · exact List.forall₂_same.mpr fun x _ => rfl

theorem interStageRewrite_spec_holds :
    ∃ fields' items',
      interStageRewrite .TRANSLATION
          [("config", Val.dict []),
            ("output", Val.l [Val.dict [("source", Val.s "hello"),
              ("target", Val.s "namaste")]])] = .ok fields' ∧
        lookupKey "config" fields' = none ∧
        lookupKey "output" fields' = none ∧
        lookupKey "input" fields' = some (.l items') ∧
        List.Forall₂ (itemRewritten .TRANSLATION)
          [Val.dict [("source", Val.s "hello"), ("target", Val.s "namaste")]]
          items' :=
  interStageRewrite_spec .TRANSLATION _
    [Val.dict [("source", Val.s "hello"), ("target", Val.s "namaste")]]
    (by decide) rfl
    (by
      intro item hm
      rw [List.mem_singleton] at hm
      subst hm
      exact ⟨_, rfl, by decide, Val.s "namaste", rfl⟩)

/-- Exceptions a pipeline stage's `run_inference` call can raise, as the
`except` clauses of `run_pipeline_inference` (inference_service.py lines
516-525) distinguish them: a `BaseError` carrying an `error_kind` tag and an
`error_message`, or any other Python exception carrying its string form. -/
inductive StageErr where
  | base (kind : String) (msg : String)
  | other (msg : String)
deriving DecidableEq, Repr

/-- Modelled from the spec: the internal error-kind tags of
`module/services/error/errors.py`, which is not under `src/` — §7 gives each
`ServerError` "an internal error-kind tag for diagnostics", so each error id
carries its own distinct opaque tag. `DHRUVA104` is the tag of the registry
failure raised by `validate_service_id` (line 84), `DHRUVA115` of the
unknown-task-type error (lines 153, 686), and `DHRUVA101`/`DHRUVA102` the two
tags singled out at lines 518-521. -/
def dhruvaKind (n : Nat) : String := "DHRUVA" ++ toString n

/-- The `error_msg` a pipeline stage's usage event records for a raised
exception (inference_service.py lines 516-525): for a `BaseError` of kind
`DHRUVA101` or `DHRUVA102` the tag joined to the message by `"_"`, for any
other `BaseError` kind nothing (`error_msg` stays `None`), and for any other
exception its string form. -/
def stageErrorMsg : StageErr → Option String
  | .base kind msg =>
      if kind = dhruvaKind 101 ∨ kind = dhruvaKind 102 then some (kind ++ "_" ++ msg)
      else none
  | .other msg => some msg

/-- Static fallback service-id table of `__auto_select_service_id`
(inference_service.py lines 663-688), keyed by task type and
`config["language"]["sourceLanguage"]`; TRANSLITERATION and NER fall into the
wildcard case, which raises `BaseError(Errors.DHRUVA115.value)`. -/
def auto_select_service_id (tt : TaskType) (sourceLanguage : String) :
    Except StageErr String :=
  match tt with
  | .ASR =>
      .ok (if sourceLanguage = "en" then "ai4bharat/whisper-medium-en--gpu--t4"
        else if sourceLanguage = "hi" then "ai4bharat/conformer-hi-gpu--t4"
        else if sourceLanguage = "kn" ∨ sourceLanguage = "ml" ∨
            sourceLanguage = "ta" ∨ sourceLanguage = "te" then
          "ai4bharat/conformer-multilingual-dravidian-gpu--t4"
        else "ai4bharat/conformer-multilingual-indo_aryan-gpu--t4")
  | .TRANSLATION => .ok "ai4bharat/indictrans-v2-all-gpu--t4"
  | .TTS =>
      .ok (if sourceLanguage = "kn" ∨ sourceLanguage = "ml" ∨
            sourceLanguage = "ta" ∨ sourceLanguage = "te" then
          "ai4bharat/indic-tts-coqui-dravidian-gpu--t4"
        else if sourceLanguage = "en" ∨ sourceLanguage = "brx" ∨
            sourceLanguage = "mni" then
          "ai4bharat/indic-tts-coqui-misc-gpu--t4"
        else "ai4bharat/indic-tts-coqui-indo_aryan-gpu--t4")
  | _ => .error (.base (dhruvaKind 115) "Unsupported Task Type")

/-- Service-id resolution for one pipeline stage (inference_service.py lines
489-497): take `config["serviceId"]` when present and truthy (Python's
`if not serviceId` treats both a missing key and an empty string as absent),
otherwise auto-select by task type and source language — which raises, before
the stage's `try` block, for task types with no fallback entry. -/
def resolveServiceId (st : Stage) : Except StageErr String :=
  match st.serviceId with
  | some sid =>
      if sid = "" then auto_select_service_id st.taskType st.sourceLanguage
      else .ok sid
  | none => auto_select_service_id st.taskType st.sourceLanguage

/-- Per-request environment of `run_pipeline_inference`: the single-task
inference path `run_inference` (§4.1-§4.4) abstracted as an oracle from the
stage's position and the current `previous_output_json` fields to its
response's fields or a raised exception, plus the caller's
`api_key_data_tracking` state flag and the request-level
`controlConfig.dataTracking` value (`none` when no control config or no
explicit flag is present). -/
structure PipelineEnv where
  oracle : Nat → List (String × Val) → Except StageErr (List (String × Val))
  apiKeyTracking : Bool
  ctlDataTracking : Option Bool

/-- One usage event handed to `log_data.apply_async` (inference_service.py
lines 535-553): the stage's task type, its resolved service id, the
data-tracking consent flag and the error summary (`error_msg`). -/
structure LogEvent where
  taskType : TaskType
  serviceId : String
  consent : Bool
  errorMsg : Option String
deriving DecidableEq, Repr

/-- Observable outcome of `run_pipeline_inference`: the returned
`pipelineResponse` list (or the propagated exception), the usage events
emitted in order, and the number of `run_inference` invocations (each of
which is what issues backend calls). -/
structure PipelineOutcome where
  result : Except StageErr (List (List (String × Val)))
  events : List LogEvent
  calls : Nat

/-- Running data-tracking consent update of one loop iteration
(inference_service.py lines 527-533): when the API key permits tracking the
flag is set true, then forced false when the request's control config
explicitly opts out (`dataTracking: false`); without the API-key permission
the accumulated flag is left as it was. -/
def updateConsent (env : PipelineEnv) (consent : Bool) : Bool :=
  if env.apiKeyTracking then
    if env.ctlDataTracking = some false then false else true
  else consent

/-- Stage-execution loop of `run_pipeline_inference` (inference_service.py
lines 486-583), one iteration per pipeline task: resolve the service id
(raising before the `try` block — no event — when auto-selection has no
entry); run the single-task inference; enqueue the stage's usage event
whether the stage succeeded or raised; re-raise a stage error after logging
it; on success deep-copy the response into the accumulated results and
rewrite it into the next stage's input (a rewrite error propagates after the
event, with Python's exception string). -/
def runPipelineLoop (env : PipelineEnv) :
    List Stage → Nat → List (String × Val) → Bool → PipelineOutcome
  | [], _, _, _ => ⟨.ok [], [], 0⟩
  | st :: rest, idx, prev, consent =>
      match resolveServiceId st with
      | .error e => ⟨.error e, [], 0⟩
      | .ok sid =>
          let consent' := updateConsent env consent
          match env.oracle idx prev with
          | .error e => ⟨.error e, [⟨st.taskType, sid, consent', stageErrorMsg e⟩], 1⟩
          | .ok out =>
              match interStageRewrite st.taskType out with
              | .error pe =>
                  ⟨.error (.other (reprStr pe)),
                    [⟨st.taskType, sid, consent', none⟩], 1⟩
              | .ok next =>
                  let restOutcome := runPipelineLoop env rest (idx + 1) next consent'
                  ⟨restOutcome.result.map (out :: ·),
                    ⟨st.taskType, sid, consent', none⟩ :: restOutcome.events,
                    restOutcome.calls + 1⟩

/-- Pipeline orchestration entry point `run_pipeline_inference`
(inference_service.py lines 445-583): validate the whole submitted stage
sequence first and, when it is invalid, return `{"pipelineResponse": []}`
with no stage executed and no usage event enqueued; otherwise run the stages
in order starting from `request_body.inputData.dict()` with the consent flag
initialised false. -/
def run_pipeline_inference (env : PipelineEnv) (stages : List Stage)
    (inputData : List (String × Val)) : PipelineOutcome :=
  if pipelineValid stages then runPipelineLoop env stages 0 inputData false
  else ⟨.ok [], [], 0⟩

/-- Claim C2: every pipeline request that fails pre-execution validation gets
back the empty result collection (the `pipelineResponse` list is `[]`), with
zero `run_inference` invocations (hence zero backend calls) and zero usage
events enqueued — no stage is even partially executed. -/
theorem invalid_pipeline_returns_empty (env : PipelineEnv) (stages : List Stage)
    (inputData : List (String × Val)) (hinv : pipelineValid stages = false) :
    run_pipeline_inference env stages inputData = ⟨.ok [], [], 0⟩ := by
  simp [run_pipeline_inference, hinv]

theorem invalid_pipeline_returns_empty_holds :
    run_pipeline_inference
        ⟨fun _ _ => .ok [], false, none⟩
        [⟨.TTS, none, some "svc-t", "hi"⟩, ⟨.ASR, none, some "svc-a", "hi"⟩]
        [] = ⟨.ok [], [], 0⟩ :=
  invalid_pipeline_returns_empty _ _ _ rfl

/-- Claim C10: the validity check only inspects adjacent stage pairs, so a
pipeline of length 0 or 1 always passes validation — whatever its task type,
NER and the terminal TTS included — and proceeds to the execution loop. -/
theorem singleton_pipeline_always_valid (env : PipelineEnv) (stages : List Stage)
    (inputData : List (String × Val)) (hlen : stages.length ≤ 1) :
    pipelineValid stages = true ∧
      run_pipeline_inference env stages inputData =
        runPipelineLoop env stages 0 inputData false := by
  have hval : pipelineValid stages = true := by
    match stages, hlen with
    | [], _ => rfl
    | [st], _ => rfl
  exact ⟨hval, by simp [run_pipeline_inference, hval]⟩

theorem singleton_pipeline_always_valid_holds :
    pipelineValid [⟨.NER, none, some "svc-n", "en"⟩] = true ∧
      run_pipeline_inference ⟨fun _ _ => .ok [], false, none⟩
          [⟨.NER, none, some "svc-n", "en"⟩] [] =
        runPipelineLoop ⟨fun _ _ => .ok [], false, none⟩
          [⟨.NER, none, some "svc-n", "en"⟩] 0 [] false :=
  singleton_pipeline_always_valid _ _ _ (by decide)

theorem runPipelineLoop_fails_at (env : PipelineEnv) (e : StageErr)
    (stages : List Stage) (k idx : Nat) (prev : List (String × Val))
    (consent : Bool) (hk : k < stages.length)
    (hsvc : ∀ j st, j ≤ k → stages.get? j = some st →
      ∃ s, resolveServiceId st = .ok s)
    (hok : ∀ j st, j < k → stages.get? j = some st → ∀ inp,
      ∃ out next, env.oracle (idx + j) inp = .ok out ∧
        interStageRewrite st.taskType out = .ok next)
    (hfail : ∀ inp, env.oracle (idx + k) inp = .error e) :
    (runPipelineLoop env stages idx prev consent).result = .error e ∧
      (runPipelineLoop env stages idx prev consent).calls = k + 1 ∧
      (runPipelineLoop env stages idx prev consent).events.map LogEvent.errorMsg =
        List.replicate k none ++ [stageErrorMsg e] := by
  induction stages generalizing k idx prev consent with
  | nil => simp at hk
  | cons st rest ih =>
    obtain ⟨sid, hsid⟩ := hsvc 0 st (Nat.zero_le k) rfl
    cases k with
    | zero =>
      have hf : env.oracle idx prev = .error e := hfail prev
      simp [runPipelineLoop, hsid, hf]
    | succ k' =>
      obtain ⟨out, next, hor, hrw⟩ := hok 0 st (Nat.succ_pos k') rfl prev
      have hor' : env.oracle idx prev = .ok out := hor
      have hk' : k' < rest.length := by
        simpa [List.length] using hk
      have hsvc' : ∀ j st', j ≤ k' → rest.get? j = some st' →
          ∃ s, resolveServiceId st' = .ok s := by
        intro j st' hj hget
        exact hsvc (j + 1) st' (Nat.succ_le_succ hj) (by simpa using hget)
      have hok' : ∀ j st', j < k' → rest.get? j = some st' → ∀ inp,
          ∃ out' next', env.oracle (idx + 1 + j) inp = .ok out' ∧
            interStageRewrite st'.taskType out' = .ok next' := by
        intro j st' hj hget inp
        obtain ⟨o, n, h1, h2⟩ :=
          hok (j + 1) st' (Nat.succ_lt_succ hj) (by simpa using hget) inp
        refine ⟨o, n, ?_, h2⟩
        rw [show idx + 1 + j = idx + (j + 1) by omega]
        exact h1
      have hfail' : ∀ inp, env.oracle (idx + 1 + k') inp = .error e := by
        intro inp
        rw [show idx + 1 + k' = idx + (k' + 1) by omega]
        exact hfail inp
      obtain ⟨ihr, ihc, ihe⟩ :=
        ih k' (idx + 1) next (updateConsent env consent) hk' hsvc' hok' hfail'
      refine ⟨?_, ?_, ?_⟩
      · simp [runPipelineLoop, hsid, hor', hrw, ihr, Except.map]
      · simp [runPipelineLoop, hsid, hor', hrw, ihc]
      · simp [runPipelineLoop, hsid, hor', hrw, ihe, List.replicate_succ]

theorem runPipelineLoop_ok_snapshots (env : PipelineEnv) (stages : List Stage)
    (idx : Nat) (prev : List (String × Val)) (consent : Bool)
    (vs : List (List (String × Val)))
    (hres : (runPipelineLoop env stages idx prev consent).result = .ok vs) :
    vs.length = stages.length ∧
      ∀ i (hi : i < vs.length), ∃ inp,
        env.oracle (idx + i) inp = .ok (vs.get ⟨i, hi⟩) := by
  induction stages generalizing idx prev consent vs with
  | nil =>
    simp only [runPipelineLoop] at hres
    obtain rfl : ([] : List (List (String × Val))) = vs := by
      simpa using hres
    refine ⟨rfl, ?_⟩
    intro i hi
    simp at hi
  | cons st rest ih =>
    cases hsv : resolveServiceId st with
    | error e => simp [runPipelineLoop, hsv] at hres
    | ok sid =>
      cases hor : env.oracle idx prev with
      | error e => simp [runPipelineLoop, hsv, hor] at hres
      | ok out =>
        cases hrw : interStageRewrite st.taskType out with
        | error pe => simp [runPipelineLoop, hsv, hor, hrw] at hres
        | ok next =>
          simp only [runPipelineLoop, hsv, hor, hrw] at hres
          cases hrec : (runPipelineLoop env rest (idx + 1) next
              (updateConsent env consent)).result with
          | error e' =>
            rw [hrec] at hres
            simp [Except.map] at hres
          | ok vs' =>
            rw [hrec] at hres
            simp only [Except.map, Except.ok.injEq] at hres
            subst hres
            obtain ⟨hlen, hsnap⟩ := ih (idx + 1) next (updateConsent env consent)
              vs' hrec
            refine ⟨by simp [List.length, hlen], ?_⟩
            intro i hi
            cases i with
            | zero => exact ⟨prev, hor⟩
            | succ i' =>
              have hi' : i' < vs'.length := by
                simpa [List.length] using hi
              obtain ⟨inp, hinp⟩ := hsnap i' hi'
              refine ⟨inp, ?_⟩
              rw [show idx + (i' + 1) = idx + 1 + i' by omega]
              exact hinp

/-- Claim C3 (amended): for every valid pipeline whose stage at position `k`
(0-based) raises while all earlier stages succeed, `run_pipeline_inference`
invokes `run_inference` exactly `k + 1` times (no later stage runs), emits
exactly one usage event per executed stage — the earlier `k` with no error
summary, the failed stage's carrying the `error_msg` the code computes
(`stageErrorMsg`): present for non-`BaseError` exceptions and for `BaseError`s
of kind DHRUVA101/DHRUVA102, absent for every other `BaseError` kind — and
then propagates the error, so the caller receives no stage results. -/
theorem pipeline_stage_failure_aborts (env : PipelineEnv) (stages : List Stage)
    (inputData : List (String × Val)) (k : Nat) (e : StageErr)
    (hval : pipelineValid stages = true)
    (hk : k < stages.length)
    (hsvc : ∀ j st, j ≤ k → stages.get? j = some st →
      ∃ s, resolveServiceId st = .ok s)
    (hok : ∀ j st, j < k → stages.get? j = some st → ∀ inp,
      ∃ out next, env.oracle j inp = .ok out ∧
        interStageRewrite st.taskType out = .ok next)
    (hfail : ∀ inp, env.oracle k inp = .error e) :
    (run_pipeline_inference env stages inputData).result = .error e ∧
      (run_pipeline_inference env stages inputData).calls = k + 1 ∧
      (run_pipeline_inference env stages inputData).events.map LogEvent.errorMsg =
        List.replicate k none ++ [stageErrorMsg e] := by
  have hok0 : ∀ j st, j < k → stages.get? j = some st → ∀ inp,
      ∃ out next, env.oracle (0 + j) inp = .ok out ∧
        interStageRewrite st.taskType out = .ok next := by
    intro j st hj hget inp
    rw [Nat.zero_add]
    exact hok j st hj hget inp
  have hfail0 : ∀ inp, env.oracle (0 + k) inp = .error e := by
    intro inp
    rw [Nat.zero_add]
    exact hfail inp
  have h := runPipelineLoop_fails_at env e stages k 0 inputData false hk hsvc
    hok0 hfail0
  simpa [run_pipeline_inference, hval] using h

/-- Three-stage speech-to-speech pipeline with explicit service ids, used to
exercise the failure path of `run_pipeline_inference`. -/
def exStages3 : List Stage :=
  [⟨.ASR, none, some "svc-a", "hi"⟩, ⟨.TRANSLATION, none, some "svc-b", "hi"⟩,
    ⟨.TTS, none, some "svc-c", "hi"⟩]

/-- Environment whose first stage succeeds with an ASR-shaped response and
whose every later stage raises a generic (non-`BaseError`) exception. -/
def exFailEnv : PipelineEnv :=
  ⟨fun idx _ =>
    if idx = 0 then .ok [("output", Val.l [Val.dict [("source", Val.s "hello")]])]
    else .error (.other "boom"), false, none⟩

theorem pipeline_stage_failure_aborts_holds :
    (run_pipeline_inference exFailEnv exStages3 []).result =
        .error (.other "boom") ∧
      (run_pipeline_inference exFailEnv exStages3 []).calls = 2 ∧
      (run_pipeline_inference exFailEnv exStages3 []).events.map
        LogEvent.errorMsg = [none, some "boom"] := by
  have h := pipeline_stage_failure_aborts exFailEnv exStages3 [] 1 (.other "boom")
    rfl (by decide)
    (by
      intro j st hj hget
      interval_cases j <;> simp [exStages3] at hget <;> subst hget
      · exact ⟨"svc-a", rfl⟩
      · exact ⟨"svc-b", rfl⟩)
    (by
      intro j st hj hget inp
      interval_cases j
      simp [exStages3] at hget
      subst hget
      exact ⟨[("output", Val.l [Val.dict [("source", Val.s "hello")]])],
        [("input", Val.l [Val.dict [("source", Val.s "hello")]])], rfl, rfl⟩)
    (fun inp => rfl)
  simpa [stageErrorMsg] using h

/-- Environment whose first stage succeeds and whose second raises the
registry-failure `BaseError` of kind DHRUVA104, the very error
`validate_service_id` raises at line 84 when the repository call fails. -/
def exRegistryFailEnv : PipelineEnv :=
  ⟨fun idx _ =>
    if idx = 0 then .ok [("output", Val.l [Val.dict [("source", Val.s "hello")]])]
    else .error (.base (dhruvaKind 104) "registry lookup failed"), false, none⟩

theorem pipeline_stage_failure_no_summary :
    (run_pipeline_inference exRegistryFailEnv exStages3 []).events.map
        LogEvent.errorMsg = [none, none] ∧
      (run_pipeline_inference exRegistryFailEnv exStages3 []).result =
        .error (.base (dhruvaKind 104) "registry lookup failed") := by
  constructor <;> rfl

/-- Claim C5: for every valid pipeline execution that returns, the
`pipelineResponse` list holds exactly one snapshot per executed stage, in
stage order, and each recorded snapshot is literally the stage's own
`run_inference` output — the deep copy guarantees that the inter-stage
rewriting performed for later stages (field renaming, source/target swapping,
key deletion) never alters any previously recorded snapshot. -/
theorem pipeline_snapshots_are_stage_outputs (env : PipelineEnv)
    (stages : List Stage) (inputData : List (String × Val))
    (vs : List (List (String × Val)))
    (hval : pipelineValid stages = true)
    (hres : (run_pipeline_inference env stages inputData).result = .ok vs) :
    vs.length = stages.length ∧
      ∀ i (hi : i < vs.length), ∃ inp,
        env.oracle i inp = .ok (vs.get ⟨i, hi⟩) := by
  rw [run_pipeline_inference, if_pos hval] at hres
  obtain ⟨hlen, hsnap⟩ :=
    runPipelineLoop_ok_snapshots env stages 0 inputData false vs hres
  refine ⟨hlen, ?_⟩
  intro i hi
  obtain ⟨inp, h⟩ := hsnap i hi
  rw [Nat.zero_add] at h
  exact ⟨inp, h⟩

/-- Two-stage ASR→TRANSLATION pipeline with explicit service ids. -/
def exStages2 : List Stage :=
  [⟨.ASR, none, some "svc-a", "hi"⟩, ⟨.TRANSLATION, none, some "svc-b", "hi"⟩]

/-- ASR-shaped stage response used by the success-path example. -/
def exAsrOut : List (String × Val) :=
  [("output", Val.l [Val.dict [("source", Val.s "hello")]])]

/-- Translation-shaped stage response used by the success-path example. -/
def exNmtOut : List (String × Val) :=
  [("output", Val.l [Val.dict [("source", Val.s "hello"),
    ("target", Val.s "namaste")]])]

/-- Environment in which both example stages succeed. -/
def exOkEnv : PipelineEnv :=
  ⟨fun idx _ => if idx = 0 then .ok exAsrOut else .ok exNmtOut, false, none⟩

theorem pipeline_snapshots_are_stage_outputs_holds :
    ([exAsrOut, exNmtOut].length = exStages2.length) ∧
      ∀ i (hi : i < [exAsrOut, exNmtOut].length), ∃ inp,
        exOkEnv.oracle i inp = .ok ([exAsrOut, exNmtOut].get ⟨i, hi⟩) :=
  pipeline_snapshots_are_stage_outputs exOkEnv exStages2 [] [exAsrOut, exNmtOut]
    rfl rfl

/-- ASR response decoding (inference_service.py lines 209-218): the
`TRANSCRIPTS` tensor read by `as_numpy`, replaced by `np.array([])` when the
tensor is absent (`None`), then `.tolist()` with each row UTF-8 decoded —
strings here stand for the already-decoded byte rows. -/
def asrDecodeTranscripts (tensor : Option (List String)) : List String :=
  match tensor with
  | none => []
  | some rows => rows

/-- Translation response decoding (inference_service.py lines 286-296): the
`OUTPUT_TEXT` tensor (one single-entry row per input), `np.array([])` when
absent, zipped against the request's input texts — Python's `zip`, like
`List.zip`, stops at the shorter side, so a missing tensor yields an empty
output list; each kept row contributes its first entry as the `"target"`
(rows from the backend are non-empty, `headD` supplies the impossible
default). -/
def translationDecodeOutputs (inputTexts : List String)
    (tensor : Option (List (List String))) : List (String × String) :=
  let output_batch := match tensor with
    | none => []
    | some rows => rows
  (inputTexts.zip output_batch).map fun p => (p.1, p.2.headD "")

/-- Transliteration response decoding for one input (inference_service.py
lines 335-339): the `OUTPUT_TEXT` tensor, `np.array([np.array([])])` when
absent, then `.tolist()[0]` decoded entry-wise into the ranked candidate
list (`headD` models the `[0]` index, which exists in both branches). -/
def transliterationDecodeCandidates (tensor : Option (List (List String))) :
    List String :=
  let encoded_result := match tensor with
    | none => [[]]
    | some rows => rows
  encoded_result.headD []

/-- TTS response decoding (inference_service.py lines 392-396): the
`OUTPUT_GENERATED_AUDIO` tensor, `np.array([np.array([])])` when absent, then
`result[0]` as the raw waveform handed to resampling. -/
def ttsExtractRawAudio (tensor : Option (List (List Float))) : List Float :=
  let result := match tensor with
    | none => [[]]
    | some rows => rows
  result.headD []

/-- Claim C6: when the expected output tensor is absent (`as_numpy` returns
`None`), each per-task response decoder degrades to an empty result instead
of raising — zero ASR transcript rows, an empty translation output list
(whatever the input texts), an empty transliteration candidate list, and an
empty raw TTS waveform. -/
theorem missing_tensor_degrades_to_empty :
    asrDecodeTranscripts none = [] ∧
      (∀ inputTexts, translationDecodeOutputs inputTexts none = []) ∧
      transliterationDecodeCandidates none = [] ∧
      ttsExtractRawAudio none = [] := by
  refine ⟨rfl, ?_, rfl, rfl⟩
  intro inputTexts
  simp [translationDecodeOutputs]

/-- One cached/registry service descriptor (`Service` / `ServiceCache` of
`..model`): the fields `run_*_triton_inference` reads. -/
structure ServiceDesc where
  serviceId : String
  modelId : String
  endpoint : String
  api_key : String
deriving DecidableEq, Repr

/-- What one `service_repository.get_by_service_id` call can do: return the
descriptor, raise `NullValueError` (the id is unknown), or raise any other
exception (repository unavailable), carrying its string form. -/
inductive RepoResult where
  | found (svc : ServiceDesc)
  | nullValue
  | failure (msg : String)

/-- Modelled from the external `fastapi`/`starlette` `status` module (imported
at inference_service.py line 16, not part of this repository): its constants
are `HTTP_<code>_<reason>` names such as `HTTP_400_BAD_REQUEST` and
`HTTP_404_NOT_FOUND`; looking up any other attribute name raises a Python
`AttributeError`, modelled as `none`. -/
def fastapiStatusAttr (name : String) : Option Nat :=
  if name = "HTTP_400_BAD_REQUEST" then some 400
  else if name = "HTTP_404_NOT_FOUND" then some 404
  else none

/-- Errors `validate_service_id` can raise (inference_service.py lines
73-87): the `ClientError` built for an unknown id, the `BaseError` of kind
DHRUVA104 wrapping any other repository failure, or the Python
`AttributeError` raised while evaluating a `status` attribute that does not
exist. -/
inductive SvcResolveErr where
  | clientError (statusCode : Nat) (message : String)
  | baseError (kind : String) (cause : String)
  | attributeError (attrName : String)
deriving DecidableEq, Repr

/-- Outcome of one `validate_service_id` call: the returned descriptor or the
raised error, the cache contents afterwards, and how many repository calls
were made. -/
structure ResolveOutcome where
  result : Except SvcResolveErr ServiceDesc
  cache : List (String × ServiceDesc)
  repoCalls : Nat
deriving Repr

/-- `populate_service_cache` (inference_service.py lines 59-63): fetch the
descriptor from the repository, store it in the cache under its id
(`ServiceCache(**service.dict()).save()`, an idempotent upsert) and return
the stored copy; repository exceptions propagate. -/
def populate_service_cache (repo : String → RepoResult)
    (cache : List (String × ServiceDesc)) (serviceId : String) :
    Except RepoResult (ServiceDesc × List (String × ServiceDesc)) :=
  match repo serviceId with
  | .found svc => .ok (svc, setKey serviceId svc cache)
  | .nullValue => .error .nullValue
  | .failure msg => .error (.failure msg)

/-- `validate_service_id` (inference_service.py lines 73-87): try
`ServiceCache.get(serviceId)` — any exception (i.e. a miss) falls through to
`populate_service_cache`; a `NullValueError` from the repository is answered
by `ClientError(status_code=status.HTTP_404_BAD_REQUEST, message="Invalid
Service Id")`, whose `status_code` argument is evaluated first and is an
attribute the `status` module does not define; any other repository failure
becomes `BaseError(Errors.DHRUVA104.value, ...)`. -/
def validate_service_id (repo : String → RepoResult)
    (cache : List (String × ServiceDesc)) (serviceId : String) : ResolveOutcome :=
  match lookupKey serviceId cache with
  | some svc => ⟨.ok svc, cache, 0⟩
  | none =>
      match repo serviceId with
      | .found svc => ⟨.ok svc, setKey serviceId svc cache, 1⟩
      | .nullValue =>
          match fastapiStatusAttr "HTTP_404_BAD_REQUEST" with
          | some code => ⟨.error (.clientError code "Invalid Service Id"), cache, 1⟩
          | none => ⟨.error (.attributeError "HTTP_404_BAD_REQUEST"), cache, 1⟩
      | .failure msg => ⟨.error (.baseError (dhruvaKind 104) msg), cache, 1⟩

/-- Claim C7 (code bug shown on the code as written): descriptor resolution
is cache-aside — a hit returns the cached descriptor with zero repository
calls, a miss populates the cache from the repository and returns the stored
descriptor, and a non-`NullValueError` repository failure raises the
DHRUVA104 `BaseError` carrying the original cause — but on the not-found
path the code evaluates `status.HTTP_404_BAD_REQUEST`, an attribute the
fastapi/starlette status module does not define, so instead of the claimed
`ClientError` with a 404-class status and message "Invalid Service Id" an
`AttributeError` escapes. -/
theorem validate_service_id_behaviour :
    (validate_service_id (fun _ => .nullValue) [] "svc-x" =
        ⟨.error (.attributeError "HTTP_404_BAD_REQUEST"), [], 1⟩) ∧
      (∀ code msg, (validate_service_id (fun _ => .nullValue) [] "svc-x").result ≠
        .error (.clientError code msg)) ∧
      (validate_service_id (fun _ => .nullValue)
          [("svc-x", ⟨"svc-x", "m1", "http://e", "k"⟩)] "svc-x" =
        ⟨.ok ⟨"svc-x", "m1", "http://e", "k"⟩,
          [("svc-x", ⟨"svc-x", "m1", "http://e", "k"⟩)], 0⟩) ∧
      (validate_service_id (fun _ => .found ⟨"svc-x", "m1", "http://e", "k"⟩)
          [] "svc-x" =
        ⟨.ok ⟨"svc-x", "m1", "http://e", "k"⟩,
          [("svc-x", ⟨"svc-x", "m1", "http://e", "k"⟩)], 1⟩) ∧
      (validate_service_id (fun _ => .failure "connection refused") [] "svc-x" =
        ⟨.error (.baseError (dhruvaKind 104) "connection refused"), [], 1⟩) := by
  refine ⟨rfl, ?_, rfl, rfl, rfl⟩
  intro code msg h
  simp [validate_service_id, fastapiStatusAttr, lookupKey] at h

/-- Language-id construction of `run_translation_triton_inference`
(inference_service.py lines 246-264): starting from the bare
`sourceLanguage`/`targetLanguage` codes, each is suffixed with `"_" +
scriptCode` exactly when the caller-supplied script code is truthy (present
and non-empty), the language is a key of the static
`LANG_CODE_TO_SCRIPT_CODE` table, and the supplied script code differs from
the table's default script for that language; `table` abstracts the static
language→default-script mapping (defined in `schema.services.common`, keyed
by language code). -/
def translationLanguageIds (table : String → Option String)
    (sourceLang targetLang : String)
    (sourceScriptCode targetScriptCode : Option String) : String × String :=
  let source_lang :=
    match sourceScriptCode with
    | some sc =>
        if sc ≠ "" then
          match table sourceLang with
          | some dflt => if sc ≠ dflt then sourceLang ++ "_" ++ sc else sourceLang
          | none => sourceLang
        else sourceLang
    | none => sourceLang
  let target_lang :=
    match targetScriptCode with
    | some sc =>
        if sc ≠ "" then
          match table targetLang with
          | some dflt => if sc ≠ dflt then targetLang ++ "_" ++ sc else targetLang
          | none => targetLang
        else targetLang
    | none => targetLang
  (source_lang, target_lang)

/-- The claim's condition for suffixing one language id: the caller supplied
a (non-empty) script code, the language appears in the language→default-script
table, and the supplied script code differs from that language's default. -/
def scriptSuffixApplies (table : String → Option String) (lang : String)
    (scriptCode : Option String) : Prop :=
  ∃ sc, scriptCode = some sc ∧ sc ≠ "" ∧ ∃ dflt, table lang = some dflt ∧ sc ≠ dflt

theorem translationLanguageIds_fst (table : String → Option String)
    (sl tl : String) (ss ts : Option String) :
    (translationLanguageIds table sl tl ss ts).1 =
      match ss with
      | some sc =>
          if sc ≠ "" then
            match table sl with
            | some dflt => if sc ≠ dflt then sl ++ "_" ++ sc else sl
            | none => sl
          else sl
      | none => sl := rfl

/-- Claim C8: in translation request construction, a language id sent to the
backend is suffixed with `"_"` plus the caller's script code iff the caller
supplied a (non-empty) script code, the language appears in the static
language→default-script table, and the supplied script differs from that
language's default script; the rule is applied independently to the source
and the target language id, and otherwise the bare code is sent unchanged. -/
theorem translation_language_id_suffix (table : String → Option String)
    (sl tl : String) (ss ts : Option String) :
    (∀ sc, ss = some sc → scriptSuffixApplies table sl ss →
        (translationLanguageIds table sl tl ss ts).1 = sl ++ "_" ++ sc) ∧
      (¬scriptSuffixApplies table sl ss →
        (translationLanguageIds table sl tl ss ts).1 = sl) ∧
      (∀ sc, ts = some sc → scriptSuffixApplies table tl ts →
        (translationLanguageIds table sl tl ss ts).2 = tl ++ "_" ++ sc) ∧
      (¬scriptSuffixApplies table tl ts →
        (translationLanguageIds table sl tl ss ts).2 = tl) := by
  refine ⟨?_, ?_, ?_, ?_⟩
  · rintro sc rfl ⟨sc', hsc', hne, dflt, hd, hdne⟩
    obtain rfl : sc = sc' := by injection hsc'
    simp [translationLanguageIds, hne, hd, hdne]
  · intro hnot
    rcases ss with _ | sc
    · simp [translationLanguageIds]
    · by_cases hne : sc = ""
      · simp [translationLanguageIds, hne]
      · rcases hd : table sl with _ | dflt
        · simp [translationLanguageIds, hne, hd]
        · by_cases hdne : sc = dflt
          · simp [translationLanguageIds, hne, hd, hdne]
          · exact absurd ⟨sc, rfl, hne, dflt, hd, hdne⟩ hnot
  · rintro sc rfl ⟨sc', hsc', hne, dflt, hd, hdne⟩
    obtain rfl : sc = sc' := by injection hsc'
    simp [translationLanguageIds, hne, hd, hdne]
  · intro hnot
    rcases ts with _ | sc
    · simp [translationLanguageIds]
    · by_cases hne : sc = ""
      · simp [translationLanguageIds, hne]
      · rcases hd : table tl with _ | dflt
        · simp [translationLanguageIds, hne, hd]
        · by_cases hdne : sc = dflt
          · simp [translationLanguageIds, hne, hd, hdne]
          · exact absurd ⟨sc, rfl, hne, dflt, hd, hdne⟩ hnot

/-- Two-language default-script table used to exercise the suffix rule. -/
def exScriptTable : String → Option String :=
  fun lang => if lang = "hi" then some "Deva"
    else if lang = "pa" then some "Guru" else none

theorem translation_language_id_suffix_holds :
    (translationLanguageIds exScriptTable "hi" "pa" (some "Latn") none).1 =
        "hi_Latn" ∧
      (translationLanguageIds exScriptTable "hi" "pa" (some "Latn") none).2 =
        "pa" := by
  constructor
  · exact (translation_language_id_suffix exScriptTable "hi" "pa"
      (some "Latn") none).1 "Latn" rfl ⟨"Latn", rfl, by decide, "Deva", rfl, by decide⟩
  · exact (translation_language_id_suffix exScriptTable "hi" "pa"
      (some "Latn") none).2.2.2 (by
        rintro ⟨sc, hsc, hne, dflt, hd, hdne⟩
        exact Option.noConfusion hsc)

/-- Python `str.strip()` on a character list: drop leading and trailing
whitespace. -/
def pyStrip (cs : List Char) : List Char :=
  ((cs.dropWhile Char.isWhitespace).reverse.dropWhile Char.isWhitespace).reverse

/-- Input normalisation `input.source.replace("\n", " ").strip()` applied to
every transliteration input (inference_service.py line 315): newlines become
spaces (a one-character pattern, so a character map), then surrounding
whitespace is stripped. -/
def pyNormalize (s : String) : String :=
  ⟨pyStrip (s.data.map fun c => if c = '\n' then ' ' else c)⟩

/-- Per-input loop of `run_transliteration_triton_inference`
(inference_service.py lines 314-343): each input's source text is normalised;
a non-blank result is sent to the backend (abstracted as `oracle`, the
decoded ranked candidate list of one Triton round-trip) while a blank one is
short-circuited to `result = [input_string]`; either way the entry
`("source": input_string, "target": result)` is appended, here as a pair.
The second component counts backend calls. -/
def transliterationResults (oracle : String → List String) :
    List String → List (String × List String) × Nat
  | [] => ([], 0)
  | source :: rest =>
      let input_string := pyNormalize source
      let restPair := transliterationResults oracle rest
      if input_string ≠ "" then
        ((input_string, oracle input_string) :: restPair.1, restPair.2 + 1)
      else
        ((input_string, [input_string]) :: restPair.1, restPair.2)

/-- Claim C9 (amended): a transliteration input whose source text is empty or
whitespace-only is short-circuited — no backend call is made for it and its
result entry is the normalised input text (the empty string) as a
single-candidate list containing that normalised text, not the original
input verbatim — while a non-blank input still costs exactly one backend
call and receives the backend's candidate list. -/
theorem transliteration_blank_short_circuit (oracle : String → List String)
    (source : String) (rest : List String) :
    (pyNormalize source = "" →
        transliterationResults oracle (source :: rest) =
          ((pyNormalize source, [pyNormalize source]) ::
              (transliterationResults oracle rest).1,
            (transliterationResults oracle rest).2)) ∧
      (pyNormalize source ≠ "" →
        transliterationResults oracle (source :: rest) =
          ((pyNormalize source, oracle (pyNormalize source)) ::
              (transliterationResults oracle rest).1,
            (transliterationResults oracle rest).2 + 1)) := by
  constructor
  · intro hblank
    simp [transliterationResults, hblank]
  · intro hnonblank
    simp [transliterationResults, hnonblank]

theorem transliteration_blank_not_unchanged :
    transliterationResults (fun t => [t]) [" "] = ([("", [""])], 0) ∧
      (" " : String) ∉ ([""] : List String) ∧ ("" : String) ≠ " " :=
  ⟨rfl, by decide, by decide⟩
